import Mathlib

/-!
Verification of the resume-template formatter / parser and the editor bridge
of the job-assistant repository.

Shallow embedding of:
* `formatDate`, `parseTemplateContent`, `formatTemplateContent` (identical in
  `src/unnamed/part_000` and `src/src/components/ResumeEditor.tsx`),
* `handleEditorChange` (both variants) and `handleFinishEdit`,
* `useEditModeManager.handleFinishEditing`,
* `useDirectEditMode.fetchResumeData` (`src/unnamed/part_001`).

Strings are modelled as Lean `String` (a wrapper around `List Char` in this
toolchain).  All record fields are total strings: in the source every field
access is guarded by `|| ""`, so a missing / null field and the empty string
are indistinguishable, and `x || ""` is the identity on the resulting value.
JavaScript string truthiness (`x ? a : b`) is modelled as `if x = "" then b
else a`.
-/

set_option maxRecDepth 100000

namespace ResumeSpec

/-- JS `s.replace(p, r)` for a single-character pattern and replacement:
only the first occurrence of `p` is replaced; if `p` does not occur the
input is returned unchanged. -/
def replaceFirst : List Char → Char → Char → List Char
  | [], _, _ => []
  | c :: rest, p, r => if c = p then r :: rest else c :: replaceFirst rest p r

/-- `formatDate` from ResumeEditor (part_000 lines 66-69): the empty string is
mapped to itself; otherwise the first `-` is replaced by 年 and 月 is
appended.  No validation is performed. -/
def formatDate (date : String) : String :=
  if date = "" then "" else String.mk (replaceFirst date.data '-' '年') ++ "月"

/-- `startsWithL l pat` is true when `pat` is an initial segment of `l`. -/
def startsWithL : List Char → List Char → Bool
  | _, [] => true
  | [], _ :: _ => false
  | c :: cs, p :: ps => if c = p then startsWithL cs ps else false

/-- Leftmost-match search: the remainder of `l` after the first occurrence of
`pat`, or `none` when `pat` (assumed nonempty) does not occur in `l`.  This is
the semantics of the regex `marker([\s\S]*?)$` used by the parser: the regex
engine matches at the leftmost possible position and the `$` anchor forces the
lazy group to extend to the end of the input. -/
def afterFirst (pat : List Char) : List Char → Option (List Char)
  | [] => none
  | c :: rest =>
      if startsWithL (c :: rest) pat then some (List.drop pat.length (c :: rest))
      else afterFirst pat rest

/-- Substring test derived from `afterFirst`. -/
def containsStr (hay needle : String) : Bool :=
  (afterFirst needle.data hay.data).isSome

/-- The whitespace class of JS `String.prototype.trim`: WhiteSpace
(tab, vertical tab, form feed, space, no-break space, BOM) and
LineTerminator (LF, CR, LS, PS). -/
def isJsWhitespace (c : Char) : Bool :=
  c = ' ' || c = '\t' || c = '\x0b' || c = '\x0c' || c = '\u00A0' ||
  c = '\uFEFF' || c = '\n' || c = '\r' || c = '\u2028' || c = '\u2029'

/-- Drop leading JS whitespace. -/
def dropLeadingWs : List Char → List Char
  | [] => []
  | c :: rest => if isJsWhitespace c then dropLeadingWs rest else c :: rest

/-- JS `String.prototype.trim`: leading and trailing whitespace removed. -/
def jsTrim (s : String) : String :=
  String.mk (List.reverse (dropLeadingWs (List.reverse (dropLeadingWs s.data))))

/-- The details-section header marker matched by the parser regex
`/## 職務詳細\n\n([\s\S]*?)$/`. -/
def detailsMarker : String := "## 職務詳細\n\n"

/-- `parseTemplateContent` from ResumeEditor (part_000 lines 71-77): if the
marker occurs, the capture (everything after the first occurrence, up to the
end of input) is trimmed and returned; otherwise the input is returned
unchanged (note: the fallback branch returns `content` without trimming). -/
def parseTemplateContent (content : String) : String :=
  match afterFirst detailsMarker.data content.data with
  | some captured => jsTrim (String.mk captured)
  | none => content

/-- One entry of `previousJobs` (type `WorkExperience` from the form types). -/
structure WorkExperience where
  companyName : String
  companyUrl : String
  startDate : String
  endDate : String
  position : String
  title : String
  achievements : String
  isSameAsCurrentCompany : Bool
deriving DecidableEq

/-- One entry of `educationHistories`. -/
structure EducationHistory where
  schoolName : String
  graduationDate : String
  department : String
  faculty : String
  major : String
deriving DecidableEq

/-- The `education` block of the form (primary education). -/
structure Education where
  university : String
  faculty : String
  department : String
  graduationDate : String
deriving DecidableEq

/-- The `currentJob` block of the form. -/
structure CurrentJob where
  companyName : String
  companyUrl : String
  startDate : String
  position : String
  title : String
  achievements : String
deriving DecidableEq

/-- `FormData`: the structured record backing the resume form. -/
structure FormData where
  id : String
  name : String
  industry : String
  position : String
  experience : String
  skills : String
  summary : String
  description : String
  education : Education
  currentJob : CurrentJob
  previousJobs : List WorkExperience
  educationHistories : List EducationHistory
  created_at : String
  updated_at : String
  user_id : String
deriving DecidableEq

/-- JS `Array.prototype.join(sep)`. -/
def joinSep (sep : String) : List String → String
  | [] => ""
  | [s] => s
  | s :: y :: rest => s ++ sep ++ joinSep sep (y :: rest)

/-- The conditional URL line `${url ? `URL: ${url}  \n` : ""}` of the
employment blocks (note the two trailing spaces before the newline). -/
def urlPart (url : String) : String :=
  if url = "" then "" else "URL: " ++ url ++ "  \n"

/-- One entry of the `previousJobs.map(...)` template of
`formatTemplateContent`. -/
def prevJobEntry (job : WorkExperience) : String :=
  "### " ++ job.companyName ++ "\n\n" ++ urlPart job.companyUrl ++
  "\n**期間:** " ++ formatDate job.startDate ++ " ～ " ++ formatDate job.endDate ++
  "  \n**職種:** " ++ job.position ++ "  \n**役職:** " ++ job.title ++
  "  \n\n#### 業務内容・実績\n" ++ job.achievements

/-- One entry of the `educationHistories.map(...)` template of
`formatTemplateContent`.  The faculty and major lines are emitted only when
the field is truthy (nonempty). -/
def eduEntry (edu : EducationHistory) : String :=
  "### " ++ edu.schoolName ++ "\n**卒業年月:** " ++ formatDate edu.graduationDate ++
  "  \n**学部/学科:** " ++ edu.department ++ "  \n" ++
  (if edu.faculty = "" then "" else "**学部:** " ++ edu.faculty ++ "  ") ++ "\n" ++
  (if edu.major = "" then "" else "**専攻:** " ++ edu.major)

/-- The `educationHistories` local of `formatTemplateContent`: the mapped
entries joined by a blank line.  In the source `data.educationHistories ?
... : ""` only distinguishes a missing array (modelled as `[]`, since
`[].map(f).join(s) == ""` as well). -/
def eduHistoriesStr (data : FormData) : String :=
  joinSep "\n\n" (data.educationHistories.map eduEntry)

/-- `${educationHistories ? `### その他学歴\n\n${educationHistories}` : ""}`:
the additional-education subsection, emitted only when the joined entry text
is nonempty. -/
def eduSection (data : FormData) : String :=
  if eduHistoriesStr data = "" then ""
  else "### その他学歴\n\n" ++ eduHistoriesStr data

/-- `${data.description || "仕事内容を入力してください"}`: the body of the
details section, falling back to the placeholder prompt when the description
is empty. -/
def detailsBody (data : FormData) : String :=
  if data.description = "" then "仕事内容を入力してください" else data.description

/-- The `### 現職` block of the template (part_000 lines 112-121). -/
def currentJobBlock (data : FormData) : String :=
  "### 現職\n\n**" ++ data.currentJob.companyName ++ "**  \n" ++
  urlPart data.currentJob.companyUrl ++
  "\n**期間:** " ++ formatDate data.currentJob.startDate ++ " ～ 現在  \n**職種:** " ++
  data.currentJob.position ++ "  \n**役職:** " ++ data.currentJob.title ++
  "  \n\n#### 業務内容・実績\n" ++ data.currentJob.achievements

/-- Everything the template emits before the additional-education subsection:
title, basic-info table, summary, skills, employment history and primary
education, ending with the blank line after 卒業. -/
def docBeforeEduSection (data : FormData) : String :=
  "# 職務経歴書\n\n## 基本情報\n\n| 項目 | 内容 |\n|------|------|\n| 氏名 | " ++
  data.name ++ " |\n| 希望職種 | " ++ data.position ++ " |\n| 業界 | " ++
  data.industry ++ " |\n| 経験年数 | " ++ data.experience ++
  "年 |\n\n## 職務要約\n\n" ++ data.summary ++ "\n\n## スキル\n\n" ++ data.skills ++
  "\n\n## 職務経歴\n\n" ++ currentJobBlock data ++ "\n\n" ++
  joinSep "\n\n" (data.previousJobs.map prevJobEntry) ++
  "\n\n## 学歴\n\n### 最終学歴\n**" ++ data.education.university ++ "** " ++
  data.education.faculty ++ " " ++ data.education.department ++ "  \n" ++
  formatDate data.education.graduationDate ++ "卒業\n\n"

/-- The document text preceding the details-section marker. -/
def docPrefix (data : FormData) : String :=
  docBeforeEduSection data ++ eduSection data ++ "\n\n"

/-- `formatTemplateContent` from ResumeEditor (part_000 lines 79-146): the
full template literal, assembled from the pieces above in source order. -/
def formatTemplateContent (data : FormData) : String :=
  docPrefix data ++ detailsMarker ++ detailsBody data

/-- The local state of the ResumeEditor component: the displayed document
string and the internal editing flag. -/
structure EditorState where
  editorContent : String
  internalIsEditing : Bool
deriving DecidableEq

/-- `handleEditorChange` from part_000 (lines 148-172), the HtmlRichEditor
variant.  Returns the new state together with the list of descriptions passed
upward through `onEdit` during the call.  Empty content returns early;
content identical to the displayed content returns early; otherwise the
displayed content is replaced and, while editing is active, the parsed
content is propagated once.  (The try/catch around the parse is dead code:
the parser is total.) -/
def handleEditorChange (s : EditorState) (content : String) :
    EditorState × List String :=
  if content = "" then (s, [])
  else if content = s.editorContent then (s, [])
  else
    if s.internalIsEditing then
      (⟨content, s.internalIsEditing⟩, [parseTemplateContent content])
    else (⟨content, s.internalIsEditing⟩, [])

/-- `handleEditorChange` from `src/src/components/ResumeEditor.tsx`
(lines 140-149), the MarkdownEditor variant: no guard at all — the displayed
content is replaced and, while editing is active, the parsed content is
propagated on every call. -/
def handleEditorChangeMd (s : EditorState) (content : String) :
    EditorState × List String :=
  if s.internalIsEditing then
    (⟨content, s.internalIsEditing⟩, [parseTemplateContent content])
  else (⟨content, s.internalIsEditing⟩, [])

/-- Observable events of the finish-editing sequence: the upward propagation
of a description through `onEdit`, and the mode-flag write performed by the
owning controller when `onFinishEditing` is signalled. -/
inductive EditorEvent where
  | onEdit (description : String) : EditorEvent
  | setIsEditing (b : Bool) : EditorEvent
deriving DecidableEq

/-- `useEditModeManager.handleFinishEditing`
(src/src/hooks/resume/useEditModeManager.ts lines 32-36): the handler wired
to `onFinishEditing`; it flips the editing flag to false (read-only). -/
def handleFinishEditing : List EditorEvent :=
  [EditorEvent.setIsEditing false]

/-- `handleFinishEdit` from ResumeEditor (part_000 lines 174-181): one final
parse of the displayed content is propagated through `onEdit`, and only then
is `onFinishEditing` signalled (here inlined to the mode-flag write of
`handleFinishEditing`).  The returned list is the event trace in call
order. -/
def handleFinishEdit (s : EditorState) : List EditorEvent :=
  EditorEvent.onEdit (parseTemplateContent s.editorContent) :: handleFinishEditing

/-- The `education` object possibly nested inside the persisted
`current_job` payload. -/
structure DbEducation where
  university : String
  faculty : String
  department : String
  graduationDate : String
deriving DecidableEq

/-- The persisted `current_job` payload: a union type in the database; `none`
models a missing / non-object value, and the nested education object is
itself optional. -/
structure DbCurrentJob where
  education : Option DbEducation
  companyName : String
  companyUrl : String
  startDate : String
  position : String
  title : String
  achievements : String
deriving DecidableEq

/-- One row of the `resumes` table as consumed by `fetchResumeData`.
Scalar columns are strings (`col || ""` collapses null to the empty string);
`previous_jobs` is `none` when the stored value is not an array
(`Array.isArray` guard). -/
structure DbRow where
  id : String
  name : String
  industry : String
  position : String
  experience : String
  skills : String
  summary : String
  description : String
  current_job : Option DbCurrentJob
  previous_jobs : Option (List WorkExperience)
  created_at : String
  updated_at : String
  user_id : String
deriving DecidableEq

/-- The `FormData` value built from a fetched row (part_001 lines 529-575).
Note line 571: `educationHistories: []` — the additional-education list is
always hydrated empty, whatever the payload holds. -/
def transformRow (data : DbRow) : FormData :=
  ⟨data.id, data.name, data.industry, data.position, data.experience,
   data.skills, data.summary, data.description,
   (match data.current_job with
    | some cj =>
        (match cj.education with
         | some e => ⟨e.university, e.faculty, e.department, e.graduationDate⟩
         | none => ⟨"", "", "", ""⟩)
    | none => ⟨"", "", "", ""⟩),
   (match data.current_job with
    | some cj => ⟨cj.companyName, cj.companyUrl, cj.startDate, cj.position,
                  cj.title, cj.achievements⟩
    | none => ⟨"", "", "", "", "", ""⟩),
   data.previous_jobs.getD [],
   [],
   data.created_at, data.updated_at, data.user_id⟩

/-- Outcome of the awaited single-row fetch: the error object, a null row, or
a row. -/
inductive FetchResult where
  | fetchError : FetchResult
  | notFound : FetchResult
  | found (row : DbRow) : FetchResult
deriving DecidableEq

/-- Observable effects of the direct-edit fetch flow: toast notifications
(title, message, destructive variant flag), navigation, populating the
structured record, and the deferred editing-flag write. -/
inductive FlowEffect where
  | toast (title message : String) (destructive : Bool) : FlowEffect
  | navigate (path : String) : FlowEffect
  | setFormData (data : FormData) : FlowEffect
  | setIsEditingFlag (b : Bool) : FlowEffect
deriving DecidableEq

/-- The re-entry / in-flight guards of `useDirectEditMode`. -/
structure FetchGuardState where
  hasAttemptedFetch : Bool
  isLoading : Bool
deriving DecidableEq

/-- `fetchResumeData` from `useDirectEditMode` (part_001 lines 476-606),
as a transition on the guard state emitting an effect trace.  Faithful
branch order: guard skip, mode/id skip, unauthenticated toast (no navigation,
no record write), then the awaited fetch; `setHasAttemptedFetch(true)` runs
after the await, error and null rows toast destructively and navigate to the
dashboard before any record write, and a fetched row is transformed and
written, followed by the completion toast (the deferred
`setIsEditing(true)` of the re-confirmation timeout is placed last).
`setIsLoading` is set and reset within the call (`finally`), so the
returned `isLoading` is unchanged. -/
def fetchResumeData (st : FetchGuardState)
    (isDirectEditMode hasId hasUser : Bool) (result : FetchResult) :
    FetchGuardState × List FlowEffect :=
  if st.hasAttemptedFetch || st.isLoading then (st, [])
  else if !isDirectEditMode || !hasId then (st, [])
  else if !hasUser then
    (st, [FlowEffect.toast "ログインが必要です"
            "保存するにはログインしてください。プレビューのみ可能です。" false])
  else
    match result with
    | FetchResult.fetchError =>
        (⟨true, st.isLoading⟩,
         [FlowEffect.toast "エラー" "職務経歴書の読み込みに失敗しました" true,
          FlowEffect.navigate "/dashboard"])
    | FetchResult.notFound =>
        (⟨true, st.isLoading⟩,
         [FlowEffect.toast "エラー" "職務経歴書が見つかりませんでした" true,
          FlowEffect.navigate "/dashboard"])
    | FetchResult.found row =>
        (⟨true, st.isLoading⟩,
         [FlowEffect.setFormData (transformRow row),
          FlowEffect.toast "読み込み完了" "職務経歴書の読み込みが完了しました" false,
          FlowEffect.setIsEditingFlag true])

/-! ### Helper lemmas about the string primitives -/

theorem data_append (a b : String) : (a ++ b).data = a.data ++ b.data := rfl

theorem str_ext {a b : String} (h : a.data = b.data) : a = b :=
  congrArg String.mk h

theorem str_append_assoc (a b c : String) : a ++ b ++ c = a ++ (b ++ c) :=
  str_ext (by simp [data_append])

theorem str_ne_empty_of_data {s : String} (h : s.data ≠ []) : s ≠ "" := by
  intro hs
  exact h (hs ▸ rfl)

theorem startsWithL_append_self (p t : List Char) :
    startsWithL (p ++ t) p = true := by
  induction p with
  | nil => cases t <;> rfl
  | cons c cs ih => simpa [startsWithL] using ih

theorem afterFirst_append_self {pat : List Char} (B : List Char)
    (h : pat ≠ []) : afterFirst pat (pat ++ B) = some B := by
  cases pat with
  | nil => exact absurd rfl h
  | cons p ps =>
      show afterFirst (p :: ps) (p :: (ps ++ B)) = some B
      rw [afterFirst]
      have hs : startsWithL (p :: (ps ++ B)) (p :: ps) = true := by
        simpa using startsWithL_append_self (p :: ps) B
      rw [if_pos hs]
      exact congrArg some (List.drop_left (p :: ps) B)

theorem afterFirst_isSome_append {pat : List Char} (X Y : List Char)
    (h : pat ≠ []) : (afterFirst pat (X ++ (pat ++ Y))).isSome = true := by
  induction X with
  | nil => rw [List.nil_append, afterFirst_append_self Y h]; rfl
  | cons c X' ih =>
      show (afterFirst pat (c :: (X' ++ (pat ++ Y)))).isSome = true
      rw [afterFirst]
      cases hs : startsWithL (c :: (X' ++ (pat ++ Y))) pat with
      | true => simp
      | false => simpa using ih

theorem afterFirst_first_occurrence {pat : List Char} (X B : List Char)
    (hp : pat ≠ [])
    (hX : ∀ n, n < X.length →
      startsWithL ((X ++ (pat ++ B)).drop n) pat = false) :
    afterFirst pat (X ++ (pat ++ B)) = some B := by
  induction X with
  | nil => simpa using afterFirst_append_self B hp
  | cons c X' ih =>
      show afterFirst pat (c :: (X' ++ (pat ++ B))) = some B
      rw [afterFirst]
      have h0 : startsWithL (c :: (X' ++ (pat ++ B))) pat = false := by
        simpa using hX 0 (by simp)
      rw [if_neg (by simp [h0])]
      refine ih ?_
      intro n hn
      have := hX (n + 1) (by simpa using Nat.succ_lt_succ hn)
      simpa using this

theorem replaceFirst_not_mem {l : List Char} {p r : Char} (h : p ∉ l) :
    replaceFirst l p r = l := by
  induction l with
  | nil => rfl
  | cons c cs ih =>
      rw [replaceFirst]
      have hcp : ¬c = p := fun hc => h (by rw [hc]; exact List.mem_cons_self p cs)
      rw [if_neg hcp, ih (fun hm => h (List.mem_cons_of_mem c hm))]

theorem replaceFirst_append {a : List Char} {p r : Char} (b : List Char)
    (h : p ∉ a) : replaceFirst (a ++ p :: b) p r = a ++ r :: b := by
  induction a with
  | nil => simp [replaceFirst]
  | cons c cs ih =>
      rw [List.cons_append, replaceFirst]
      have hcp : ¬c = p := fun hc => h (by rw [hc]; exact List.mem_cons_self p cs)
      rw [if_neg hcp, ih (fun hm => h (List.mem_cons_of_mem c hm)), List.cons_append]

theorem joinSep_cons_split (sep x : String) (rest : List String) :
    ∃ t : String, joinSep sep (x :: rest) = x ++ t := by
  cases rest with
  | nil =>
      refine ⟨"", ?_⟩
      show x = x ++ ""
      exact (str_ext (by simp [data_append])).symm
  | cons y ys =>
      exact ⟨sep ++ joinSep sep (y :: ys), by rw [joinSep, str_append_assoc]⟩

theorem eduEntry_split (e : EducationHistory) :
    ∃ u : String, eduEntry e = "### " ++ u := by
  unfold eduEntry
  simp only [str_append_assoc]
  exact ⟨_, rfl⟩

theorem eduHistoriesStr_ne_empty {d : FormData}
    (h : d.educationHistories ≠ []) : eduHistoriesStr d ≠ "" := by
  cases hl : d.educationHistories with
  | nil => exact absurd hl h
  | cons e es =>
      unfold eduHistoriesStr
      rw [hl, List.map_cons]
      obtain ⟨t, ht⟩ := joinSep_cons_split "\n\n" (eduEntry e) (es.map eduEntry)
      obtain ⟨u, hu⟩ := eduEntry_split e
      rw [ht, hu, str_append_assoc]
      refine str_ne_empty_of_data ?_
      rw [data_append]
      exact List.append_ne_nil_of_left_ne_nil (by decide) _

/-! ### Sample records used by witnesses and counterexamples -/

/-- Primary education with all fields empty. -/
def emptyEducation : Education := ⟨"", "", "", ""⟩

/-- Current employment with all fields empty. -/
def emptyCurrentJob : CurrentJob := ⟨"", "", "", "", "", ""⟩

/-- The record with every field empty / absent. -/
def emptyRecord : FormData :=
  ⟨"", "", "", "", "", "", "", "", emptyEducation, emptyCurrentJob,
   [], [], "", "", ""⟩

/-- An otherwise empty record with description "hello". -/
def sampleRecord : FormData :=
  ⟨"", "", "", "", "", "", "", "hello", emptyEducation, emptyCurrentJob,
   [], [], "", "", ""⟩

/-- A record whose free-text summary itself contains the details-section
marker, placing a marker occurrence before the structural one. -/
def adversarialRecord : FormData :=
  ⟨"", "", "", "", "", "", "## 職務詳細\n\n攻", "d", emptyEducation,
   emptyCurrentJob, [], [], "", "", ""⟩

/-- A record with an empty additional-education list whose description
contains the additional-education header text. -/
def emptyEduRecord : FormData :=
  ⟨"", "", "", "", "", "", "", "### その他学歴", emptyEducation,
   emptyCurrentJob, [], [], "", "", ""⟩

/-- A record with one additional-education entry. -/
def oneEduRecord : FormData :=
  ⟨"", "", "", "", "", "", "", "", emptyEducation, emptyCurrentJob,
   [], [⟨"X大学", "2020-03", "工学部", "", ""⟩], "", "", ""⟩

/-- A record whose description is literally the placeholder prompt. -/
def placeholderDescRecord : FormData :=
  ⟨"", "", "", "", "", "", "", "仕事内容を入力してください", emptyEducation,
   emptyCurrentJob, [], [], "", "", ""⟩

/-! ### Claim theorems -/

/-- C6.  Date rendering: `formatDate` maps the empty string to the empty
string; `"2024-04"` renders as `"2024年04月"`; for any strings `a`, `b` with
no `-` in `a`, the first `-` of `a ++ "-" ++ b` is replaced by 年 and 月 is
appended; and a non-empty input containing no `-` at all is passed through
unchanged (with 月 appended), i.e. no validation and graceful degradation on
malformed input. -/
theorem formatDate_spec :
    formatDate "" = "" ∧
    formatDate "2024-04" = "2024年04月" ∧
    (∀ a b : String, '-' ∉ a.data →
      formatDate (a ++ "-" ++ b) = a ++ "年" ++ b ++ "月") ∧
    (∀ d : String, d ≠ "" → '-' ∉ d.data → formatDate d = d ++ "月") := by
  refine ⟨rfl, by decide, ?_, ?_⟩
  · intro a b ha
    have hdata : (a ++ "-" ++ b).data = a.data ++ '-' :: b.data := by
      simp [data_append]
    have hne : (a ++ "-" ++ b) ≠ "" := by
      refine str_ne_empty_of_data ?_
      rw [hdata]
      exact List.append_ne_nil_of_right_ne_nil _ (by simp)
    unfold formatDate
    rw [if_neg hne, hdata, replaceFirst_append _ ha]
    refine str_ext ?_
    simp [data_append]
  · intro d hd hmem
    unfold formatDate
    rw [if_neg hd, replaceFirst_not_mem hmem]

/-- C6 witness: the general conjuncts of `formatDate_spec` applied at
concrete inputs. -/
theorem formatDate_spec_witness :
    formatDate ("2024" ++ "-" ++ "04") = "2024" ++ "年" ++ "04" ++ "月" ∧
    formatDate "abc" = "abc月" :=
  ⟨formatDate_spec.2.2.1 "2024" "04" (by decide),
   formatDate_spec.2.2.2 "abc" (by decide) (by decide)⟩

/-- C2 counterexample: an input that does not contain the details marker but
has surrounding whitespace is returned unchanged, not trimmed — the claim
that the fallback trims is false at this input. -/
theorem parseFallback_counterexample :
    containsStr "  plain text  " detailsMarker = false ∧
    parseTemplateContent "  plain text  " = "  plain text  " ∧
    parseTemplateContent "  plain text  " ≠ jsTrim "  plain text  " := by
  refine ⟨by decide, by decide, by decide⟩

/-- C2 amended: for every input in which the details marker does not occur,
`parseTemplateContent` returns the input unchanged (without trimming). -/
theorem parseFallback (c : String) (h : containsStr c detailsMarker = false) :
    parseTemplateContent c = c := by
  unfold containsStr at h
  unfold parseTemplateContent
  cases hm : afterFirst detailsMarker.data c.data with
  | none => rfl
  | some v => rw [hm] at h; simp at h

/-- C2 witness: the amended fallback at a concrete marker-free input. -/
theorem parseFallback_witness :
    parseTemplateContent "  plain text  " = "  plain text  " :=
  parseFallback "  plain text  " (by decide)

/-- C4.  Finish-editing flush order: for every editor state, the event trace
of `handleFinishEdit` propagates the parse of the displayed content through
`onEdit` at an index strictly before the index at which the editing flag is
flipped to read-only (the `setIsEditing false` performed by the controller
when `onFinishEditing` is signalled). -/
theorem finishEditFlush (s : EditorState) :
    ∃ i j, i < j ∧
      (handleFinishEdit s).get? i =
        some (EditorEvent.onEdit (parseTemplateContent s.editorContent)) ∧
      (handleFinishEdit s).get? j = some (EditorEvent.setIsEditing false) :=
  ⟨0, 1, Nat.zero_lt_one, rfl, rfl⟩

/-- C5.  Totality: both core functions are total Lean functions.  For every
record the formatter returns a string, one that always begins with the fixed
document title (so it is in particular nonempty and defined); for every input
string the parser returns a string, either the input itself (fallback) or the
trimmed capture. -/
theorem formatterParserTotal (d : FormData) (c : String) :
    (∃ rest : String, formatTemplateContent d = "# 職務経歴書" ++ rest) ∧
    (parseTemplateContent c = c ∨
      ∃ suffix : String, parseTemplateContent c = jsTrim suffix) := by
  constructor
  · have hsplit :
        ("# 職務経歴書\n\n## 基本情報\n\n| 項目 | 内容 |\n|------|------|\n| 氏名 | " :
          String) =
        "# 職務経歴書" ++ "\n\n## 基本情報\n\n| 項目 | 内容 |\n|------|------|\n| 氏名 | " := by
      decide
    unfold formatTemplateContent docPrefix docBeforeEduSection
    rw [hsplit]
    simp only [str_append_assoc]
    exact ⟨_, rfl⟩
  · unfold parseTemplateContent
    cases hm : afterFirst detailsMarker.data c.data with
    | none => exact Or.inl rfl
    | some v => exact Or.inr ⟨String.mk v, rfl⟩

/-- C1 counterexample: a record whose summary field contains the details
marker.  Its description is nonempty, yet parsing the formatted document does
not recover the trimmed description — the regex matches the earlier marker
occurrence injected by the summary.  Hence the round-trip fails without a
precondition on the other fields. -/
theorem roundTrip_counterexample :
    adversarialRecord.description ≠ "" ∧
    parseTemplateContent (formatTemplateContent adversarialRecord) ≠
      jsTrim adversarialRecord.description := by
  refine ⟨by decide, by decide⟩

/-- C1 amended.  Round-trip: for every record with nonempty description,
parsing the formatted document recovers the trimmed description, provided the
details marker does not occur in the document before its structural position
(the hypothesis `hfirst`; it holds in particular whenever no other field
injects the marker substring). -/
theorem roundTrip (r : FormData) (hd : r.description ≠ "")
    (hfirst : ∀ n, n < (docPrefix r).data.length →
      startsWithL ((formatTemplateContent r).data.drop n) detailsMarker.data =
        false) :
    parseTemplateContent (formatTemplateContent r) = jsTrim r.description := by
  have hm : detailsMarker.data ≠ [] := by decide
  have hdata : (formatTemplateContent r).data =
      (docPrefix r).data ++ (detailsMarker.data ++ (detailsBody r).data) := by
    simp [formatTemplateContent, data_append, List.append_assoc]
  have hfirst2 : ∀ n, n < (docPrefix r).data.length →
      startsWithL
        (((docPrefix r).data ++
          (detailsMarker.data ++ (detailsBody r).data)).drop n)
        detailsMarker.data = false := by
    intro n hn
    rw [← hdata]
    exact hfirst n hn
  have haf : afterFirst detailsMarker.data (formatTemplateContent r).data =
      some (detailsBody r).data := by
    rw [hdata]
    exact afterFirst_first_occurrence _ _ hm hfirst2
  unfold parseTemplateContent
  rw [haf]
  show jsTrim (detailsBody r) = jsTrim r.description
  unfold detailsBody
  rw [if_neg hd]

/-- C1 witness: the amended round-trip at a concrete record with description
"hello" and marker-free remaining fields. -/
theorem roundTrip_witness :
    parseTemplateContent (formatTemplateContent sampleRecord) =
      jsTrim sampleRecord.description :=
  roundTrip sampleRecord (by decide) (by decide)

/-- C3 counterexample: in the MarkdownEditor-variant handler (ResumeEditor.tsx
lines 140-149, one of the two cited implementations) a second call with
identical content propagates again — two consecutive identical calls produce
two upward propagations — and a call with empty content also propagates.
The claim as stated is false for this handler. -/
theorem editorChangeSuppression_counterexample :
    (handleEditorChangeMd ⟨"a", true⟩ "b").2 = ["b"] ∧
    (handleEditorChangeMd (handleEditorChangeMd ⟨"a", true⟩ "b").1 "b").2 =
      ["b"] ∧
    (handleEditorChangeMd ⟨"a", true⟩ "").2 = [""] := by
  refine ⟨by decide, by decide, by decide⟩

/-- C3 amended.  For the HtmlRichEditor-variant handler (part_000):
empty content is a no-op with no propagation; content identical to the
displayed content is a no-op with no propagation; new nonempty content while
editing is active updates the state and propagates the parsed content exactly
once; and a repeated call with the same content after any first call
propagates nothing, so two consecutive identical calls never propagate
twice. -/
theorem editorChangeSuppression (s : EditorState) (c : String) :
    (c = "" → handleEditorChange s c = (s, [])) ∧
    (c = s.editorContent → handleEditorChange s c = (s, [])) ∧
    (c ≠ "" → c ≠ s.editorContent → s.internalIsEditing = true →
      handleEditorChange s c = (⟨c, true⟩, [parseTemplateContent c])) ∧
    (handleEditorChange (handleEditorChange s c).1 c).2 = [] := by
  refine ⟨?_, ?_, ?_, ?_⟩
  · intro h
    unfold handleEditorChange
    rw [if_pos h]
  · intro h
    unfold handleEditorChange
    by_cases h0 : c = ""
    · rw [if_pos h0]
    · rw [if_neg h0, if_pos h]
  · intro h0 h1 h2
    simp [handleEditorChange, h0, h1, h2]
  · by_cases h0 : c = ""
    · simp [handleEditorChange, h0]
    · by_cases h1 : c = s.editorContent
      · simp [handleEditorChange, h0, h1]
      · by_cases h2 : s.internalIsEditing <;>
          simp [handleEditorChange, h0, h1, h2]

/-- C3 witness: the guarded handler at concrete states — a fresh nonempty
content while editing propagates once; empty content is a no-op. -/
theorem editorChangeSuppression_witness :
    handleEditorChange ⟨"old", true⟩ "new" =
      (⟨"new", true⟩, [parseTemplateContent "new"]) ∧
    handleEditorChange ⟨"old", true⟩ "" = (⟨"old", true⟩, []) :=
  ⟨(editorChangeSuppression ⟨"old", true⟩ "new").2.2.1 (by decide) (by decide)
     rfl,
   (editorChangeSuppression ⟨"old", true⟩ "").1 rfl⟩

/-- C7 counterexample: a record with an empty additional-education list whose
description contains the header text.  The formatted document does contain
the header substring although the list is empty, so the stated equivalence
(header contained iff list nonempty) is false at this record. -/
theorem eduSectionEmission_counterexample :
    emptyEduRecord.educationHistories = [] ∧
    containsStr (formatTemplateContent emptyEduRecord) "### その他学歴" =
      true := by
  refine ⟨rfl, by decide⟩

/-- C7 amended.  If the additional-education list is nonempty the formatted
document contains the section header; if the list is empty the formatter
omits the whole subsection — the document is exactly the surrounding template
with no block between the education part and the details section (the header
text can then occur only through the content of other fields, as in the
counterexample). -/
theorem eduSectionEmission (d : FormData) :
    (d.educationHistories ≠ [] →
      containsStr (formatTemplateContent d) "### その他学歴" = true) ∧
    (d.educationHistories = [] →
      formatTemplateContent d =
        docBeforeEduSection d ++
          ("\n\n" ++ (detailsMarker ++ detailsBody d))) := by
  constructor
  · intro h
    have hne := eduHistoriesStr_ne_empty h
    have hsplitHdr : ("### その他学歴\n\n" : String).data =
        ("### その他学歴" : String).data ++ ("\n\n" : String).data := by decide
    have hdataEq : (formatTemplateContent d).data =
        (docBeforeEduSection d).data ++
          (("### その他学歴" : String).data ++
            (("\n\n" : String).data ++
              ((eduHistoriesStr d).data ++
                (("\n\n" : String).data ++
                  (detailsMarker.data ++ (detailsBody d).data))))) := by
      simp [formatTemplateContent, docPrefix, eduSection, hne, data_append,
        hsplitHdr, List.append_assoc]
    unfold containsStr
    rw [hdataEq]
    exact afterFirst_isSome_append _ _ (by decide)
  · intro h
    have hstr : eduHistoriesStr d = "" := by
      unfold eduHistoriesStr
      rw [h]
      rfl
    have hsec : eduSection d = "" := by
      unfold eduSection
      rw [if_pos hstr]
    unfold formatTemplateContent docPrefix
    rw [hsec]
    refine str_ext ?_
    simp [data_append]

/-- C7 witness: a record with one entry contains the header; the empty record
formats to the template with the subsection omitted. -/
theorem eduSectionEmission_witness :
    containsStr (formatTemplateContent oneEduRecord) "### その他学歴" = true ∧
    formatTemplateContent emptyRecord =
      docBeforeEduSection emptyRecord ++
        ("\n\n" ++ (detailsMarker ++ detailsBody emptyRecord)) :=
  ⟨(eduSectionEmission oneEduRecord).1 (by decide),
   (eduSectionEmission emptyRecord).2 rfl⟩

/-- C8 counterexample: a record whose description is literally the
placeholder prompt.  Its description is nonempty, yet the emitted details
body equals the placeholder and the document is identical to the one produced
for an empty description — so "the body equals the placeholder exactly when
the description is empty" fails in the only-if direction. -/
theorem detailsRendering_counterexample :
    placeholderDescRecord.description ≠ "" ∧
    detailsBody placeholderDescRecord = "仕事内容を入力してください" ∧
    formatTemplateContent placeholderDescRecord =
      docPrefix placeholderDescRecord ++
        "## 職務詳細\n\n仕事内容を入力してください" := by
  refine ⟨by decide, by decide, by decide⟩

/-- C8 amended.  The details header is contained in every formatted document;
when the description is empty the document ends with the header followed by
the placeholder prompt (the converse fails only when the description equals
the placeholder literally, per the counterexample); and the document of the
all-fields-empty record contains neither "undefined" nor "null". -/
theorem detailsRendering (d : FormData) :
    containsStr (formatTemplateContent d) "## 職務詳細" = true ∧
    (d.description = "" →
      formatTemplateContent d =
        docPrefix d ++ "## 職務詳細\n\n仕事内容を入力してください") ∧
    containsStr (formatTemplateContent emptyRecord) "undefined" = false ∧
    containsStr (formatTemplateContent emptyRecord) "null" = false := by
  refine ⟨?_, ?_, by decide, by decide⟩
  · have hsplitHdr : detailsMarker.data =
        ("## 職務詳細" : String).data ++ ("\n\n" : String).data := by decide
    have hdataEq : (formatTemplateContent d).data =
        (docPrefix d).data ++
          (("## 職務詳細" : String).data ++
            (("\n\n" : String).data ++ (detailsBody d).data)) := by
      simp [formatTemplateContent, data_append, hsplitHdr, List.append_assoc]
    unfold containsStr
    rw [hdataEq]
    exact afterFirst_isSome_append _ _ (by decide)
  · intro h
    unfold formatTemplateContent detailsBody
    rw [if_pos h]
    refine str_ext ?_
    have hsplit : ("## 職務詳細\n\n仕事内容を入力してください" : String).data =
        detailsMarker.data ++ ("仕事内容を入力してください" : String).data := by
      decide
    simp [data_append, hsplit]
    decide

/-- C8 witness: the empty-description conjunct applied to the all-empty
record. -/
theorem detailsRendering_witness :
    formatTemplateContent emptyRecord =
      docPrefix emptyRecord ++ "## 職務詳細\n\n仕事内容を入力してください" :=
  (detailsRendering emptyRecord).2.1 rfl

/-- C9.  Direct-edit fetch failure: when the guards allow the fetch to run
and the awaited result is an error or a missing row, the effect trace
contains a destructive error toast and a navigation away to the dashboard,
and contains no record population (`setFormData`) at all. -/
theorem fetchFailureAborts (st : FetchGuardState) (result : FetchResult)
    (h1 : st.hasAttemptedFetch = false) (h2 : st.isLoading = false)
    (h3 : result = FetchResult.fetchError ∨ result = FetchResult.notFound) :
    (∃ t m, FlowEffect.toast t m true ∈
      (fetchResumeData st true true true result).2) ∧
    FlowEffect.navigate "/dashboard" ∈
      (fetchResumeData st true true true result).2 ∧
    ∀ fd, FlowEffect.setFormData fd ∉
      (fetchResumeData st true true true result).2 := by
  obtain ⟨a, b⟩ := st
  replace h1 : a = false := h1
  replace h2 : b = false := h2
  subst h1
  subst h2
  rcases h3 with h | h <;> subst h
  · exact ⟨⟨"エラー", "職務経歴書の読み込みに失敗しました",
        by simp [fetchResumeData]⟩,
      by simp [fetchResumeData], fun fd => by simp [fetchResumeData]⟩
  · exact ⟨⟨"エラー", "職務経歴書が見つかりませんでした",
        by simp [fetchResumeData]⟩,
      by simp [fetchResumeData], fun fd => by simp [fetchResumeData]⟩

/-- C9 witness: the failure path at a concrete fresh guard state with an
error result navigates to the dashboard. -/
theorem fetchFailureAborts_witness :
    FlowEffect.navigate "/dashboard" ∈
      (fetchResumeData ⟨false, false⟩ true true true
        FetchResult.fetchError).2 :=
  (fetchFailureAborts ⟨false, false⟩ FetchResult.fetchError rfl rfl
    (Or.inl rfl)).2.1

/-- C10.  Hydration drops additional education: whatever row the fetch
returns, the populated record has an empty additional-education list, the
formatter therefore emits an empty additional-education block, and the
formatted document of the hydrated record is exactly the template with the
whole subsection (header and body) absent. -/
theorem hydrationDropsEducation (row : DbRow) :
    (transformRow row).educationHistories = [] ∧
    eduSection (transformRow row) = "" ∧
    formatTemplateContent (transformRow row) =
      docBeforeEduSection (transformRow row) ++
        ("\n\n" ++ (detailsMarker ++ detailsBody (transformRow row))) := by
  have h0 : (transformRow row).educationHistories = [] := rfl
  have hstr : eduHistoriesStr (transformRow row) = "" := by
    unfold eduHistoriesStr
    rw [h0]
    rfl
  have hsec : eduSection (transformRow row) = "" := by
    unfold eduSection
    rw [if_pos hstr]
  refine ⟨h0, hsec, ?_⟩
  unfold formatTemplateContent docPrefix
  rw [hsec]
  refine str_ext ?_
  simp [data_append]

end ResumeSpec
